import Mathlib

/-!
Shallow embedding of the device-inventory backend (`backend/app.py`):
stored values, raw documents, the AI-Performance extraction cascade,
status and tag normalization, and the MongoDB-backed endpoint functions
`get_mongodb_devices`, `get_device_specifications`,
`get_device_applications` and `get_devices_with_tags`.
-/

deriving instance DecidableEq for Except

namespace WebSteve

/-- ASCII lower-casing, as Python `str.lower` and `re.IGNORECASE` behave on
the ASCII range that the stored data uses. -/
def lcChar (c : Char) : Char :=
  if 'A' ≤ c ∧ c ≤ 'Z' then Char.ofNat (c.toNat + 32) else c

/-- Python regex `\s` on the ASCII range. -/
def isPySpace (c : Char) : Bool :=
  c = ' ' || c = '\t' || c = '\n' || c = '\r' || c = '\x0b' || c = '\x0c'

/-- Does `s` start with `pat` (exact characters)? -/
def listStartsWith : List Char → List Char → Bool
  | [], _ => true
  | _ :: _, [] => false
  | p :: ps, c :: cs => decide (p = c) && listStartsWith ps cs

/-- Exact (case-sensitive) substring occurrence, as Python `pat in s`. -/
def occursStr (pat : List Char) : List Char → Bool
  | [] => decide (pat = [])
  | c :: rest => listStartsWith pat (c :: rest) || occursStr pat rest

/-- Case-insensitive literal match of `pat` (given in lower case) against
the head of `s`; on success returns the remainder of `s`. -/
def matchLitIC : List Char → List Char → Option (List Char)
  | [], s => some s
  | _ :: _, [] => none
  | p :: ps, c :: cs => if lcChar c = p then matchLitIC ps cs else none

/-- Case-insensitive substring occurrence of a (lower-case) literal. -/
def occursIC (pat : List Char) : List Char → Bool
  | [] => decide (pat = [])
  | c :: rest => (matchLitIC pat (c :: rest)).isSome || occursIC pat rest

/-- Numeric value of a decimal digit character. -/
def digitVal (c : Char) : Nat := c.toNat - 48

/-- Value of a run of decimal digits, as Python `int` on a digit string. -/
def digitsVal (ds : List Char) : Nat :=
  ds.foldl (fun a c => a * 10 + digitVal c) 0

/-- Attempt of the regex `Up to (\d+)(?:\s*TOPS)?` (IGNORECASE) at the
current position: the literal `"up to "`, then a maximal nonempty digit
run, which is the captured group.  The optional TOPS tail can never fail,
so it does not affect the match or the capture. -/
def tryUpToAt (s : List Char) : Option Nat :=
  match matchLitIC ('u' :: 'p' :: ' ' :: 't' :: 'o' :: ' ' :: []) s with
  | none => none
  | some rest =>
    let ds := rest.takeWhile Char.isDigit
    if ds.isEmpty then none else some (digitsVal ds)

/-- `re.search` of pattern 1 (`Up to (\d+)(?:\s*TOPS)?`, IGNORECASE):
leftmost position where the attempt succeeds. -/
def searchUpTo : List Char → Option Nat
  | [] => none
  | c :: rest =>
    match tryUpToAt (c :: rest) with
    | some n => some n
    | none => searchUpTo rest

/-- Attempt of the regex `(\d+)\s*TOPS` (IGNORECASE) at the current
position: a maximal nonempty digit run (the capture), maximal whitespace,
then the literal `TOPS`.  Backtracking to shorter runs cannot help since
a digit or whitespace character never starts `TOPS`. -/
def tryTopsAt (s : List Char) : Option Nat :=
  match s with
  | [] => none
  | c :: _ =>
    if c.isDigit then
      let ds := s.takeWhile Char.isDigit
      let rest := (s.dropWhile Char.isDigit).dropWhile isPySpace
      match matchLitIC ('t' :: 'o' :: 'p' :: 's' :: []) rest with
      | some _ => some (digitsVal ds)
      | none => none
    else none

/-- `re.search` of pattern 2 (`(\d+)\s*TOPS`, IGNORECASE). -/
def searchTops : List Char → Option Nat
  | [] => none
  | c :: rest =>
    match tryTopsAt (c :: rest) with
    | some n => some n
    | none => searchTops rest

/-- Helper for `digitRuns`: `cur` is the reversed digit run in progress. -/
def digitRunsAux : List Char → List Char → List (List Char)
  | [], cur => if cur.isEmpty then [] else [cur.reverse]
  | c :: rest, cur =>
    if c.isDigit then digitRunsAux rest (c :: cur)
    else if cur.isEmpty then digitRunsAux rest []
    else cur.reverse :: digitRunsAux rest []

/-- `re.findall(r'\d+', s)`: the maximal digit runs of `s`, in order. -/
def digitRuns (s : List Char) : List (List Char) := digitRunsAux s []

/-- The string arm of the extraction cascade of `get_mongodb_devices`
(app.py lines 236-263): pattern `Up to (\d+)(?:\s*TOPS)?` first, then
`(\d+)\s*TOPS`, then the largest of all digit runs, else 0. -/
def extractPerfStr (s : List Char) : Nat :=
  match searchUpTo s with
  | some n => n
  | none =>
    match searchTops s with
    | some n => n
    | none =>
      match digitRuns s with
      | [] => 0
      | r :: rs => ((r :: rs).map digitsVal).foldl max 0

/-- Did some pattern of the string arm match?  Exactly in this case the
loop body executes `continue` (app.py lines 244, 251, 259), skipping the
assignments of `type`, `model`, `name` and `lastSeen` for this device. -/
def strPatternHit (s : List Char) : Bool :=
  (searchUpTo s).isSome || (searchTops s).isSome || !(digitRuns s).isEmpty

/-- Stored document values, as the BSON/JSON scalars the claims need. -/
inductive BVal where
  | vstr (s : List Char)
  | vint (n : Int)
  | vbool (b : Bool)
  | vnull
  deriving DecidableEq

/-- Python `int(x)` on the non-string values the store can hold: ints are
themselves, booleans are 0/1; `int(None)` raises `TypeError`, which the
code catches and turns into 0 (app.py lines 266-271). -/
def intCoerce : BVal → Int
  | .vint n => n
  | .vbool b => if b then 1 else 0
  | _ => 0

/-- The full AI-Performance extraction of `get_mongodb_devices`
(app.py lines 232-271): strings go through the three patterns in order,
non-strings through `int()` with 0 on failure. -/
def extractPerformance : BVal → Int
  | .vstr s => (extractPerfStr s : Int)
  | v => intCoerce v

/-- A raw `device_specifications` document, restricted to the keys the
endpoints read.  An `Option` field is `none` when the key is absent; a
present key holding BSON null is `some .vnull`.  `oid` is the string form
of the document's `_id` (`str(device['_id'])`). -/
structure RawDoc where
  oid : String
  deviceName : Option BVal
  aiPerf : Option BVal
  superMode : Option BVal
  tag : Option BVal
  tagUpper : Option BVal
  descriptionSummary : Option BVal
  deviceId : Option String
  description : Option BVal
  deriving DecidableEq

/-- One entry of an application-link's `applications` array; `name` is
`none` when the entry has no `name` key (then `app['name']` raises). -/
structure AppEntry where
  name : Option (List Char)
  deriving DecidableEq

/-- A `device_applications` document: `device_id` foreign key plus the
optional `applications` array. -/
structure AppLink where
  device_id : String
  applications : Option (List AppEntry)
  deriving DecidableEq

/-- The two collections the endpoints query. -/
structure Store where
  specs : List RawDoc
  apps : List AppLink
  deriving DecidableEq

/-- `device_apps_collection.find_one({'device_id': id})` followed by the
`if apps and 'applications' in apps` guard: the entries when a link with
an `applications` key exists, `none` otherwise. -/
def appsLookup (st : Store) (id : String) : Option (List AppEntry) :=
  match st.apps.find? (fun a => decide (a.device_id = id)) with
  | some link => link.applications
  | none => none

/-- `[app['name'] for app in entries]`: fails (KeyError, propagating to
the route's outer handler) when any entry lacks a `name` key. -/
def extractAppNames : List AppEntry → Except Unit (List (List Char))
  | [] => .ok []
  | e :: es =>
    match e.name with
    | none => .error ()
    | some n =>
      match extractAppNames es with
      | .ok ns => .ok (n :: ns)
      | .error u => .error u

/-- The applications joined onto a device in `get_mongodb_devices` and
`get_devices_with_tags` (app.py lines 213-220 and 437-442): names of the
linked entries, `[]` when no link (or no `applications` key) exists. -/
def appsNamesResult (st : Store) (id : String) : Except Unit (List (List Char)) :=
  match appsLookup st id with
  | some entries => extractAppNames entries
  | none => .ok []

/-- `'enabled' if super_mode == 'Enable' else 'disabled'`
(app.py line 226), where `super_mode = device.get('Super Mode')`. -/
def statusOf (sm : Option BVal) : List Char :=
  if sm = some (.vstr ("Enable".data)) then "enabled".data else "disabled".data

/-- The companion human-readable string (app.py line 227). -/
def formattedStatusOf (sm : Option BVal) : List Char :=
  if sm = some (.vstr ("Enable".data)) then "Super Mode: Enabled".data
  else "Super Mode: Disabled".data

/-- The canonical view one iteration of the `get_mongodb_devices` loop
leaves in the device dict.  `type`, `model`, `name` are `none` when the
corresponding assignment was skipped by `continue`; `lastSeenSet` records
whether the (nondeterministic) `lastSeen` timestamp was assigned. -/
structure MongoDeviceView where
  oid : String
  deviceName : Option BVal
  tag : Option BVal
  descriptionSummary : Option BVal
  applications : List (List Char)
  status : List Char
  formatted_status : List Char
  performance : Int
  type : Option (List Char)
  model : Option BVal
  name : Option BVal
  lastSeenSet : Bool
  deriving DecidableEq

/-- Did the loop body execute `continue` for this AI-Performance value?
True exactly when the value is a string on which some pattern matched
(app.py lines 244, 251, 259); the non-string arm never continues. -/
def perfBranchSkipped : BVal → Bool
  | .vstr s => strPatternHit s
  | _ => false

/-- One iteration of the loop of `get_mongodb_devices` (app.py lines
209-283) on document `d`: join applications, derive status, extract
performance, and — only when no string pattern matched (`continue`) —
add `type`, `model`, `name` and `lastSeen`. -/
def normalizeMongoDevice (st : Store) (d : RawDoc) : Except Unit MongoDeviceView :=
  match appsNamesResult st d.oid with
  | .error u => .error u
  | .ok applications =>
    let ai_perf := d.aiPerf.getD (.vstr [])
    let dn := d.deviceName.getD (.vstr [])
    .ok
      { oid := d.oid
        deviceName := d.deviceName
        tag := d.tag
        descriptionSummary := d.descriptionSummary
        applications := applications
        status := statusOf d.superMode
        formatted_status := formattedStatusOf d.superMode
        performance := extractPerformance ai_perf
        type := if perfBranchSkipped ai_perf then none else some ("ai_edge".data)
        model := if perfBranchSkipped ai_perf then none else some dn
        name := if perfBranchSkipped ai_perf then none else some dn
        lastSeenSet := !perfBranchSkipped ai_perf }

/-- Normalization of a list of fetched documents in order; an exception
on any document aborts the whole response (app.py lines 287-292). -/
def normalizeMongoList (st : Store) : List RawDoc → Except Unit (List MongoDeviceView)
  | [] => .ok []
  | d :: ds =>
    match normalizeMongoDevice st d with
    | .error u => .error u
    | .ok w =>
      match normalizeMongoList st ds with
      | .error u => .error u
      | .ok ws => .ok (w :: ws)

/-- The `/api/devices/mongodb` route body. -/
def getMongodbDevices (st : Store) : Except Unit (List MongoDeviceView) :=
  normalizeMongoList st st.specs

/-- The resolved `tag_value` of `get_devices_with_tags` (app.py lines
418-426): the `tag` key if present, else the `Tag` key, else `None`. -/
def tagValue (d : RawDoc) : BVal :=
  match d.tag with
  | some v => v
  | none =>
    match d.tagUpper with
    | some v => v
    | none => .vnull

/-- The output tag (app.py lines 428-433): `None` stays `None`, any other
value gets `.lower()`, which raises `AttributeError` (propagating to the
route's outer handler) on non-strings. -/
def normTagResult (d : RawDoc) : Except Unit BVal :=
  match tagValue d with
  | .vnull => .ok .vnull
  | .vstr s => .ok (.vstr (s.map lcChar))
  | _ => .error ()

/-- The view one iteration of the `get_devices_with_tags` loop produces.
`tagUpper` is the surviving `A`-case `Tag` key (popped when it was used
as the fallback). -/
structure WithTagsView where
  idStr : String
  tag : BVal
  tagUpper : Option BVal
  applications : List (List Char)
  deviceName : BVal
  formattedName : BVal
  description : BVal
  deriving DecidableEq

/-- The `deviceName`/`formattedName` defaulting of `get_devices_with_tags`
(app.py lines 444-451). -/
def deviceNameOrUnknown (d : RawDoc) : BVal :=
  match d.deviceName with
  | some v => v
  | none => .vstr (("Unknown Device (" ++ d.oid ++ ")").data)

/-- One iteration of the loop of `get_devices_with_tags` (app.py lines
413-455): stringify `_id`, resolve and lower-case the tag, join
application names, default `deviceName`/`formattedName`/`description`. -/
def normalizeWithTags (st : Store) (d : RawDoc) : Except Unit WithTagsView :=
  match normTagResult d with
  | .error u => .error u
  | .ok tagOut =>
    match appsNamesResult st d.oid with
    | .error u => .error u
    | .ok applications =>
      .ok
        { idStr := d.oid
          tag := tagOut
          tagUpper := if d.tag.isSome then d.tagUpper else none
          applications := applications
          deviceName := deviceNameOrUnknown d
          formattedName := deviceNameOrUnknown d
          description := d.description.getD .vnull }

/-- Normalization of the fetched list for `/api/devices/with-tags`. -/
def normalizeWithTagsList (st : Store) : List RawDoc → Except Unit (List WithTagsView)
  | [] => .ok []
  | d :: ds =>
    match normalizeWithTags st d with
    | .error u => .error u
    | .ok w =>
      match normalizeWithTagsList st ds with
      | .error u => .error u
      | .ok ws => .ok (w :: ws)

/-- The `/api/devices/with-tags` route body. -/
def getDevicesWithTags (st : Store) : Except Unit (List WithTagsView) :=
  normalizeWithTagsList st st.specs

/-- A hexadecimal digit, as `bson.ObjectId` accepts. -/
def isHexChar (c : Char) : Bool :=
  c.isDigit || ('a' ≤ c && c ≤ 'f') || ('A' ≤ c && c ≤ 'F')

/-- `ObjectId(s)`: succeeds exactly on 24-character hex strings, raising
`bson.errors.InvalidId` otherwise; the resulting id compares equal to a
stored `_id` through its canonical lower-case hex form. -/
def parseObjectId (s : String) : Option String :=
  if s.length = 24 ∧ s.data.all isHexChar then some ⟨s.data.map lcChar⟩ else none

/-- The response document of `get_device_specifications`: `idOut` is the
`_id` key (`none` means it was removed), `descOut` the
`description_summary` key (`none` means absent), `doc` the passthrough
source document. -/
structure SpecOut where
  idOut : Option String
  descOut : Option BVal
  doc : RawDoc
  deriving DecidableEq

/-- Outcome of `/api/devices/specifications/<device_id>`. -/
inductive SpecResult where
  | found (o : SpecOut)
  | notFound
  deriving DecidableEq

/-- The `get_device_specifications` route body (app.py lines 294-326):
first a lookup by the `device_id` field (then `_id` is popped), then a
lookup by `ObjectId` (then `_id` is stringified and
`description_summary` defaulted to null), else 404.  An invalid
`ObjectId` string is caught by the inner handler and falls through to
the 404. -/
def getDeviceSpecifications (st : Store) (device_id : String) : SpecResult :=
  match st.specs.find? (fun x => decide (x.deviceId = some device_id)) with
  | some d => .found { idOut := none, descOut := d.descriptionSummary, doc := d }
  | none =>
    match parseObjectId device_id with
    | none => .notFound
    | some o =>
      match st.specs.find? (fun x => decide (x.oid = o)) with
      | some d =>
        .found
          { idOut := some d.oid
            descOut := some (d.descriptionSummary.getD .vnull)
            doc := d }
      | none => .notFound

/-- `'Server' in device.get('deviceName', '')` (app.py line 360):
a case-sensitive substring test on strings; a non-string present value
raises `TypeError`, which propagates to the route's outer handler. -/
def isServerName : BVal → Except Unit Bool
  | .vstr s => .ok (occursStr ("Server".data) s)
  | _ => .error ()

/-- The fixed server default application set (app.py lines 364-369). -/
def serverDefaultApps : List (List Char) :=
  [("High-Performance Computing".data), ("Data Center Operations".data),
   ("Cloud Services".data), ("Enterprise AI Solutions".data)]

/-- The fixed edge default application set (app.py lines 371-375). -/
def edgeDefaultApps : List (List Char) :=
  [("Smart Surveillance".data), ("Industrial Quality Inspection".data),
   ("Edge Computing".data)]

/-- Outcome of `/api/devices/applications/<device_id>`: the stored rich
application objects, a list of plain default names (possibly empty), or
the 500 error path. -/
inductive AppsResult where
  | objects (entries : List AppEntry)
  | names (l : List (List Char))
  | errored
  deriving DecidableEq

/-- `find_one({'_id': ObjectId(id)})` over the specifications. -/
def findSpecByOid (st : Store) (o : String) : Option RawDoc :=
  st.specs.find? (fun x => decide (x.oid = o))

/-- The `get_device_applications` route body (app.py lines 328-395).
The first `ObjectId` construction sits inside an inner try/except; after
it, `device_id` has been reassigned to `str(device['_id'])` when the
device was found.  The second `ObjectId` construction (line 358) is NOT
guarded: an invalid identifier there escapes to the outer handler. -/
def getDeviceApplications (st : Store) (device_id : String) : AppsResult :=
  match appsLookup st device_id with
  | some entries => .objects entries
  | none =>
    let second : Option (List AppEntry) :=
      match parseObjectId device_id with
      | some o =>
        match findSpecByOid st o with
        | some dev => appsLookup st dev.oid
        | none => none
      | none => none
    let did2 : String :=
      match parseObjectId device_id with
      | some o =>
        match findSpecByOid st o with
        | some dev => dev.oid
        | none => device_id
      | none => device_id
    match second with
    | some entries => .objects entries
    | none =>
      match parseObjectId did2 with
      | none => .errored
      | some o =>
        match findSpecByOid st o with
        | some dev =>
          match isServerName (dev.deviceName.getD (.vstr [])) with
          | .error _ => .errored
          | .ok true => .names serverDefaultApps
          | .ok false => .names edgeDefaultApps
        | none => .names []

/-- Fixture for the C5 witness: a document whose Super Mode is "Enable". -/
def dC5 : RawDoc :=
  { oid := "aaaaaaaaaaaaaaaaaaaaaaaa"
    deviceName := none, aiPerf := none
    superMode := some (.vstr ("Enable".data))
    tag := none, tagUpper := none
    descriptionSummary := none, deviceId := none, description := none }

/-- Fixture store for the C5 witness. -/
def stC5 : Store := { specs := [dC5], apps := [] }

/-- Fixture: the view `get_mongodb_devices` produces for `dC5`. -/
def wC5 : MongoDeviceView :=
  { oid := "aaaaaaaaaaaaaaaaaaaaaaaa"
    deviceName := none, tag := none, descriptionSummary := none
    applications := []
    status := "enabled".data
    formatted_status := "Super Mode: Enabled".data
    performance := 0
    type := some ("ai_edge".data)
    model := some (.vstr [])
    name := some (.vstr [])
    lastSeenSet := true }

/-- Fixture for the C2 counterexample: the AI-Performance string matches
the "Up to" pattern, so the loop's `continue` skips the assignments of
`type`, `model` and `name`; the document carries no tag. -/
def dC2 : RawDoc :=
  { oid := "bbbbbbbbbbbbbbbbbbbbbbbb"
    deviceName := some (.vstr ("NCOX".data))
    aiPerf := some (.vstr ("Up to 16 TOPS".data))
    superMode := none, tag := none, tagUpper := none
    descriptionSummary := none, deviceId := none, description := none }

/-- Fixture store for C2. -/
def stC2 : Store := { specs := [dC2], apps := [] }

/-- Fixture: the view `get_mongodb_devices` produces for `dC2`. -/
def wC2 : MongoDeviceView :=
  { oid := "bbbbbbbbbbbbbbbbbbbbbbbb"
    deviceName := some (.vstr ("NCOX".data))
    tag := none, descriptionSummary := none
    applications := []
    status := "disabled".data
    formatted_status := "Super Mode: Disabled".data
    performance := 16
    type := none, model := none, name := none
    lastSeenSet := false }

/-- Fixture for the C3 counterexample: a numeric AI-Performance of -5. -/
def dC3 : RawDoc :=
  { oid := "cccccccccccccccccccccccc"
    deviceName := none
    aiPerf := some (.vint (-5))
    superMode := none, tag := none, tagUpper := none
    descriptionSummary := none, deviceId := none, description := none }

/-- Fixture store for C3. -/
def stC3 : Store := { specs := [dC3], apps := [] }

/-- Fixture: the view `get_mongodb_devices` produces for `dC3`. -/
def wC3 : MongoDeviceView :=
  { oid := "cccccccccccccccccccccccc"
    deviceName := none, tag := none, descriptionSummary := none
    applications := []
    status := "disabled".data
    formatted_status := "Super Mode: Disabled".data
    performance := -5
    type := some ("ai_edge".data)
    model := some (.vstr [])
    name := some (.vstr [])
    lastSeenSet := true }

/-- Fixture for the C4 counterexample: a present, empty-string tag. -/
def dC4 : RawDoc :=
  { oid := "dddddddddddddddddddddddd"
    deviceName := some (.vstr ("NCOX".data))
    aiPerf := none, superMode := none
    tag := some (.vstr [])
    tagUpper := none
    descriptionSummary := none, deviceId := none, description := none }

/-- Fixture store for C4. -/
def stC4 : Store := { specs := [dC4], apps := [] }

/-- Fixture: the view `get_devices_with_tags` produces for `dC4`. -/
def wC4 : WithTagsView :=
  { idStr := "dddddddddddddddddddddddd"
    tag := .vstr []
    tagUpper := none
    applications := []
    deviceName := .vstr ("NCOX".data)
    formattedName := .vstr ("NCOX".data)
    description := .vnull }

/-- Fixture for the C6 witness: one stored document, queried with an
identifier matching nothing. -/
def dC6 : RawDoc :=
  { oid := "eeeeeeeeeeeeeeeeeeeeeeee"
    deviceName := some (.vstr ("NCOX".data))
    aiPerf := none, superMode := none, tag := none, tagUpper := none
    descriptionSummary := none, deviceId := some "dev-1", description := none }

/-- Fixture store for C6. -/
def stC6 : Store := { specs := [dC6], apps := [] }

/-- Fixtures for C7: a device whose name contains "Server", one without,
and no application links at all. -/
def dC7srv : RawDoc :=
  { oid := "111111111111111111111111"
    deviceName := some (.vstr ("AI Server X".data))
    aiPerf := none, superMode := none, tag := none, tagUpper := none
    descriptionSummary := none, deviceId := none, description := none }

/-- Fixture: a non-server device for C7. -/
def dC7edge : RawDoc :=
  { oid := "222222222222222222222222"
    deviceName := some (.vstr ("NCOX".data))
    aiPerf := none, superMode := none, tag := none, tagUpper := none
    descriptionSummary := none, deviceId := none, description := none }

/-- Fixture store for C7. -/
def stC7 : Store := { specs := [dC7srv, dC7edge], apps := [] }

/-- Fixture for C10: a document found via its `device_id` field. -/
def dC10a : RawDoc :=
  { oid := "ffffffffffffffffffffffff"
    deviceName := some (.vstr ("NCOX".data))
    aiPerf := none, superMode := none, tag := none, tagUpper := none
    descriptionSummary := some (.vstr ("a summary".data))
    deviceId := some "legacy-1", description := none }

/-- Fixture for C10: a document found only via its ObjectId, with no
stored description_summary. -/
def dC10b : RawDoc :=
  { oid := "abcdefabcdefabcdefabcdef"
    deviceName := some (.vstr ("PSON".data))
    aiPerf := none, superMode := none, tag := none, tagUpper := none
    descriptionSummary := none, deviceId := none, description := none }

/-- Fixture store for C10. -/
def stC10 : Store := { specs := [dC10a, dC10b], apps := [] }

/-- Fixture for C8: a document with a non-string (integer) tag value. -/
def dC8a : RawDoc :=
  { oid := "444444444444444444444444"
    deviceName := some (.vstr ("NCOX".data))
    aiPerf := none, superMode := none
    tag := some (.vint 7)
    tagUpper := none
    descriptionSummary := none, deviceId := none, description := none }

/-- Fixture for C8: a plain document whose application link holds an
entry without a `name` key. -/
def dC8b : RawDoc :=
  { oid := "555555555555555555555555"
    deviceName := some (.vstr ("NCOX".data))
    aiPerf := none, superMode := none, tag := none, tagUpper := none
    descriptionSummary := none, deviceId := none, description := none }

/-- Fixture store for C8: `dC8b`'s link has a nameless entry. -/
def stC8 : Store :=
  { specs := [dC8a, dC8b]
    apps := [{ device_id := "555555555555555555555555"
               applications := some [{ name := none }] }] }

/-- Fixture for the C8 witness: a well-formed document. -/
def dC8good : RawDoc :=
  { oid := "666666666666666666666666"
    deviceName := some (.vstr ("NCOX".data))
    aiPerf := none, superMode := none, tag := none, tagUpper := none
    descriptionSummary := none, deviceId := none, description := none }

/-- Fixture for C9: the end-to-end scenario's specification document. -/
def dC9 : RawDoc :=
  { oid := "67f4044ea91332165a91a8ab"
    deviceName := some (.vstr ("NCOX".data))
    aiPerf := some (.vstr ("Up to 16 TOPS".data))
    superMode := some (.vstr ("Enable".data))
    tag := some (.vstr ("Best Seller".data))
    tagUpper := none
    descriptionSummary := none, deviceId := none, description := none }

/-- Fixture store for C9: the specification plus its application link. -/
def stC9 : Store :=
  { specs := [dC9]
    apps := [{ device_id := "67f4044ea91332165a91a8ab"
               applications := some [{ name := some ("Smart Surveillance".data) }] }] }

theorem takeWhile_append_cons {p : Char → Bool} (ds : List Char) (c : Char)
    (l : List Char) (h : ∀ x ∈ ds, p x = true) (hc : p c = false) :
    (ds ++ (c :: l)).takeWhile p = ds ∧ (ds ++ (c :: l)).dropWhile p = c :: l := by
  induction ds with
  | nil => simp [List.takeWhile_cons, List.dropWhile_cons, hc]
  | cons d ds ih =>
    have hd : p d = true := h d (List.mem_cons_self d ds)
    have ih' := ih (fun x hx => h x (List.mem_cons_of_mem d hx))
    simp [List.takeWhile_cons, List.dropWhile_cons, hd, ih'.1, ih'.2]

theorem matchLitIC_map_append (s : List Char) :
    ∀ r : List Char, matchLitIC (s.map lcChar) (s ++ r) = some r := by
  induction s with
  | nil => intro r; rfl
  | cons c cs ih => intro r; simp [matchLitIC, ih]

theorem matchLitIC_isSome_occursIC {pat s r : List Char}
    (h : matchLitIC pat s = some r) : occursIC pat s = true := by
  cases s with
  | nil =>
    cases pat with
    | nil => rfl
    | cons p ps => simp [matchLitIC] at h
  | cons c cs => simp [occursIC, h]

theorem occursIC_cons {pat : List Char} (c : Char) {s : List Char}
    (h : occursIC pat s = true) : occursIC pat (c :: s) = true := by
  simp [occursIC, h]

theorem occursIC_dropWhile {pat : List Char} (q : Char → Bool) :
    ∀ s : List Char, occursIC pat (s.dropWhile q) = true → occursIC pat s = true := by
  intro s
  induction s with
  | nil => simp [List.dropWhile]
  | cons c cs ih =>
    intro h
    by_cases hq : q c = true
    · exact occursIC_cons c (ih (by simpa [List.dropWhile_cons, hq] using h))
    · simpa [List.dropWhile_cons, hq] using h

theorem matchLitIC_append_some {p q s r : List Char}
    (h : matchLitIC (p ++ q) s = some r) : ∃ r', matchLitIC p s = some r' := by
  induction p generalizing s with
  | nil => exact ⟨s, rfl⟩
  | cons a ps ih =>
    cases s with
    | nil => simp [matchLitIC] at h
    | cons c cs =>
      by_cases hc : lcChar c = a
      · simp only [List.cons_append, matchLitIC, hc, if_true] at h ⊢
        exact ih h
      · simp [matchLitIC, hc] at h

theorem occursIC_append_left {p q : List Char} :
    ∀ s, occursIC (p ++ q) s = true → occursIC p s = true := by
  intro s
  induction s with
  | nil =>
    intro h
    simp [occursIC] at h ⊢
    exact h.1
  | cons c cs ih =>
    intro h
    simp only [occursIC, Bool.or_eq_true] at h ⊢
    rcases h with h | h
    · obtain ⟨r, hr⟩ := Option.isSome_iff_exists.mp h
      obtain ⟨r', hr'⟩ := matchLitIC_append_some hr
      exact Or.inl (by simp [hr'])
    · exact Or.inr (ih h)

theorem searchUpTo_occursIC {s : List Char} {n : Nat} (h : searchUpTo s = some n) :
    occursIC ('u' :: 'p' :: ' ' :: 't' :: 'o' :: ' ' :: []) s = true := by
  induction s with
  | nil => simp [searchUpTo] at h
  | cons c cs ih =>
    rw [searchUpTo] at h
    cases ht : tryUpToAt (c :: cs) with
    | some m =>
      rw [tryUpToAt] at ht
      cases hm : matchLitIC ('u' :: 'p' :: ' ' :: 't' :: 'o' :: ' ' :: []) (c :: cs) with
      | none => rw [hm] at ht; exact absurd ht (by simp)
      | some rest => exact matchLitIC_isSome_occursIC hm
    | none => rw [ht] at h; exact occursIC_cons c (ih h)

theorem searchTops_occursIC {s : List Char} {n : Nat} (h : searchTops s = some n) :
    occursIC ('t' :: 'o' :: 'p' :: 's' :: []) s = true := by
  induction s with
  | nil => simp [searchTops] at h
  | cons c cs ih =>
    rw [searchTops] at h
    cases ht : tryTopsAt (c :: cs) with
    | some m =>
      rw [tryTopsAt] at ht
      by_cases hd : c.isDigit
      · simp only [hd, if_true] at ht
        cases hm : matchLitIC ('t' :: 'o' :: 'p' :: 's' :: [])
            (((c :: cs).dropWhile Char.isDigit).dropWhile isPySpace) with
        | none => rw [hm] at ht; exact absurd ht (by simp)
        | some rest =>
          exact occursIC_dropWhile Char.isDigit (c :: cs)
            (occursIC_dropWhile isPySpace ((c :: cs).dropWhile Char.isDigit)
              (matchLitIC_isSome_occursIC hm))
      · simp [hd] at ht
    | none => rw [ht] at h; exact occursIC_cons c (ih h)

theorem foldl_max_mem_and_bound (l : List Nat) :
    ∀ a : Nat, (l.foldl max a = a ∨ l.foldl max a ∈ l) ∧ a ≤ l.foldl max a ∧
      ∀ x ∈ l, x ≤ l.foldl max a := by
  induction l with
  | nil => intro a; exact ⟨Or.inl rfl, Nat.le_refl a, by simp⟩
  | cons c r ih =>
    intro a
    have h := ih (max a c)
    refine ⟨?_, ?_, ?_⟩
    · rw [List.foldl_cons]
      rcases h.1 with h1 | h1
      · rcases max_choice a c with hm | hm
        · exact Or.inl (by rw [h1, hm])
        · exact Or.inr (by rw [h1, hm]; exact List.mem_cons_self c r)
      · exact Or.inr (List.mem_cons_of_mem c h1)
    · rw [List.foldl_cons]
      exact Nat.le_trans (Nat.le_max_left a c) h.2.1
    · intro x hx
      rw [List.foldl_cons]
      rcases List.mem_cons.mp hx with rfl | hx
      · exact Nat.le_trans (Nat.le_max_right a x) h.2.1
      · exact h.2.2 x hx

/-- C1: the extracted performance evaluates the rules in strict order with
the first match winning: a successful `Up to N` search wins outright; with
it failing, a successful `N TOPS` search wins; any string that is exactly
`Up to N TOPS` in any casing yields exactly N; a string with digit runs
but no case-insensitive `Up to`/`TOPS` occurrence yields the numerically
largest run; a non-string is coerced directly (`int`), with null giving 0. -/
theorem C1_performance_extraction_rules :
    (∀ s n, searchUpTo s = some n → extractPerformance (.vstr s) = (n : Int))
    ∧ (∀ s n, searchUpTo s = none → searchTops s = some n →
        extractPerformance (.vstr s) = (n : Int))
    ∧ (∀ u1 p1 t1 o1 t2 o2 p2 s2 : Char, ∀ ds : List Char,
        (u1 = 'u' ∨ u1 = 'U') → (p1 = 'p' ∨ p1 = 'P') →
        (t1 = 't' ∨ t1 = 'T') → (o1 = 'o' ∨ o1 = 'O') →
        (t2 = 't' ∨ t2 = 'T') → (o2 = 'o' ∨ o2 = 'O') →
        (p2 = 'p' ∨ p2 = 'P') → (s2 = 's' ∨ s2 = 'S') →
        ds ≠ [] → (∀ c ∈ ds, c.isDigit = true) →
        extractPerformance
          (.vstr (u1 :: p1 :: ' ' :: t1 :: o1 :: ' ' ::
            (ds ++ (' ' :: t2 :: o2 :: p2 :: s2 :: [])))) = (digitsVal ds : Int))
    ∧ (∀ s : List Char,
        occursIC ('u' :: 'p' :: ' ' :: 't' :: 'o' :: []) s = false →
        occursIC ('t' :: 'o' :: 'p' :: 's' :: []) s = false →
        digitRuns s ≠ [] →
        (∃ run ∈ digitRuns s, extractPerformance (.vstr s) = (digitsVal run : Int))
          ∧ ∀ run ∈ digitRuns s, (digitsVal run : Int) ≤ extractPerformance (.vstr s))
    ∧ (∀ n : Int, extractPerformance (.vint n) = n)
    ∧ extractPerformance .vnull = 0 := by
  refine ⟨?_, ?_, ?_, ?_, fun n => rfl, rfl⟩
  · intro s n h
    simp [extractPerformance, extractPerfStr, h]
  · intro s n h1 h2
    simp [extractPerformance, extractPerfStr, h1, h2]
  · intro u1 p1 t1 o1 t2 o2 p2 s2 ds hu hp ht ho _ _ _ _ hne hds
    have hu' : lcChar u1 = 'u' := by rcases hu with rfl | rfl <;> decide
    have hp' : lcChar p1 = 'p' := by rcases hp with rfl | rfl <;> decide
    have ht' : lcChar t1 = 't' := by rcases ht with rfl | rfl <;> decide
    have ho' : lcChar o1 = 'o' := by rcases ho with rfl | rfl <;> decide
    have hsp : lcChar ' ' = ' ' := by decide
    have hmap : (u1 :: p1 :: ' ' :: t1 :: o1 :: ' ' :: []).map lcChar =
        ('u' :: 'p' :: ' ' :: 't' :: 'o' :: ' ' :: []) := by
      simp [hu', hp', ht', ho', hsp]
    have hm := matchLitIC_map_append (u1 :: p1 :: ' ' :: t1 :: o1 :: ' ' :: [])
      (ds ++ (' ' :: t2 :: o2 :: p2 :: s2 :: []))
    rw [hmap] at hm
    simp only [List.cons_append, List.nil_append] at hm
    obtain ⟨d0, ds', rfl⟩ : ∃ d0 ds', ds = d0 :: ds' := by
      cases ds with
      | nil => exact absurd rfl hne
      | cons a b => exact ⟨a, b, rfl⟩
    simp only [List.cons_append] at hm
    have htw2 : List.takeWhile Char.isDigit
        (d0 :: (ds' ++ (' ' :: t2 :: o2 :: p2 :: s2 :: []))) = d0 :: ds' := by
      have htw := (takeWhile_append_cons (d0 :: ds') ' '
        (t2 :: o2 :: p2 :: s2 :: []) hds (by decide : Char.isDigit ' ' = false)).1
      simpa using htw
    have htry : tryUpToAt (u1 :: p1 :: ' ' :: t1 :: o1 :: ' ' :: d0 ::
        (ds' ++ (' ' :: t2 :: o2 :: p2 :: s2 :: []))) =
        some (digitsVal (d0 :: ds')) := by
      simp only [tryUpToAt, hm, htw2]
      rfl
    have hsearch : searchUpTo (u1 :: p1 :: ' ' :: t1 :: o1 :: ' ' :: d0 ::
        (ds' ++ (' ' :: t2 :: o2 :: p2 :: s2 :: []))) =
        some (digitsVal (d0 :: ds')) := by
      rw [searchUpTo, htry]
    simp [extractPerformance, extractPerfStr, hsearch]
  · intro s h5 h4 hruns
    have h1 : searchUpTo s = none := by
      cases hs : searchUpTo s with
      | none => rfl
      | some n =>
        have hocc := searchUpTo_occursIC hs
        have hocc' : occursIC (('u' :: 'p' :: ' ' :: 't' :: 'o' :: []) ++ (' ' :: [])) s
            = true := by simpa using hocc
        have := occursIC_append_left s hocc'
        rw [h5] at this
        exact Bool.noConfusion this
    have h2 : searchTops s = none := by
      cases hs : searchTops s with
      | none => rfl
      | some n =>
        have hocc := searchTops_occursIC hs
        rw [h4] at hocc
        exact Bool.noConfusion hocc
    cases hr : digitRuns s with
    | nil => exact absurd hr hruns
    | cons r rs =>
      have hval : extractPerformance (.vstr s) =
          ((((r :: rs).map digitsVal).foldl max 0 : Nat) : Int) := by
        simp [extractPerformance, extractPerfStr, h1, h2, hr]
      have hspec := foldl_max_mem_and_bound ((r :: rs).map digitsVal) 0
      constructor
      · rcases hspec.1 with h0 | hmem
        · have hb := hspec.2.2 (digitsVal r) (by simp)
          rw [h0] at hb
          have hz : digitsVal r = 0 := Nat.le_zero.mp hb
          refine ⟨r, List.mem_cons_self r rs, ?_⟩
          rw [hval, h0, hz]
        · obtain ⟨run, hrun, hrv⟩ := List.mem_map.mp hmem
          refine ⟨run, hrun, ?_⟩
          rw [hval, hrv]
      · intro run hrun
        have hb := hspec.2.2 (digitsVal run) (List.mem_map_of_mem digitsVal hrun)
        rw [hval]
        exact_mod_cast hb

/-- Witness for C1 at concrete inputs: every conjunct applied and its
hypotheses discharged. -/
theorem C1_performance_extraction_rules_witness :
    extractPerformance (.vstr ("Up to 16".data)) = ((16 : Nat) : Int)
    ∧ extractPerformance (.vstr ("8 TOPS".data)) = ((8 : Nat) : Int)
    ∧ extractPerformance
        (.vstr ('U' :: 'p' :: ' ' :: 't' :: 'o' :: ' ' ::
          (('1' :: '6' :: []) ++ (' ' :: 'T' :: 'O' :: 'P' :: 'S' :: [])))) =
        (digitsVal ('1' :: '6' :: []) : Int)
    ∧ ((∃ run ∈ digitRuns ("4 or 16".data),
          extractPerformance (.vstr ("4 or 16".data)) = (digitsVal run : Int))
        ∧ ∀ run ∈ digitRuns ("4 or 16".data),
            (digitsVal run : Int) ≤ extractPerformance (.vstr ("4 or 16".data)))
    ∧ extractPerformance (.vint (-5)) = -5
    ∧ extractPerformance .vnull = 0 := by
  refine ⟨C1_performance_extraction_rules.1 _ 16 (by decide),
    C1_performance_extraction_rules.2.1 _ 8 (by decide) (by decide),
    C1_performance_extraction_rules.2.2.1 'U' 'p' 't' 'o' 'T' 'O' 'P' 'S'
      ('1' :: '6' :: []) (Or.inr rfl) (Or.inl rfl) (Or.inl rfl) (Or.inl rfl)
      (Or.inr rfl) (Or.inr rfl) (Or.inr rfl) (Or.inr rfl)
      (by decide) (by decide),
    C1_performance_extraction_rules.2.2.2.1 _ (by decide) (by decide) (by decide),
    C1_performance_extraction_rules.2.2.2.2.1 (-5),
    C1_performance_extraction_rules.2.2.2.2.2⟩

/-- C5: status derivation is a pure function of the Super Mode field:
the status is "enabled" iff the field holds exactly the string "Enable"
(any other value, null, or a missing key gives "disabled"), the formatted
status is the fixed human string keyed off the same boolean, and the
normalizer populates both view fields from the Super Mode field alone. -/
theorem C5_status_derivation :
    (∀ sm : Option BVal,
      statusOf sm = "enabled".data ↔ sm = some (.vstr ("Enable".data)))
    ∧ (∀ sm : Option BVal,
        statusOf sm = "enabled".data ∨ statusOf sm = "disabled".data)
    ∧ (∀ sm : Option BVal,
        formattedStatusOf sm =
          if sm = some (.vstr ("Enable".data)) then "Super Mode: Enabled".data
          else "Super Mode: Disabled".data)
    ∧ (∀ st d w, normalizeMongoDevice st d = .ok w →
        w.status = statusOf d.superMode ∧
        w.formatted_status = formattedStatusOf d.superMode) := by
  refine ⟨?_, ?_, fun sm => rfl, ?_⟩
  · intro sm
    by_cases h : sm = some (BVal.vstr ("Enable".data)) <;> simp [statusOf, h]
  · intro sm
    by_cases h : sm = some (BVal.vstr ("Enable".data))
    · exact Or.inl (by simp [statusOf, h])
    · exact Or.inr (by simp [statusOf, h])
  · intro st d w h
    unfold normalizeMongoDevice at h
    cases happ : appsNamesResult st d.oid with
    | error u =>
      rw [happ] at h
      simp at h
    | ok apps =>
      rw [happ] at h
      simp only [Except.ok.injEq] at h
      subst h
      exact ⟨rfl, rfl⟩

/-- Witness for C5 at the concrete fixture. -/
theorem C5_status_derivation_witness :
    wC5.status = statusOf dC5.superMode ∧
    wC5.formatted_status = formattedStatusOf dC5.superMode :=
  C5_status_derivation.2.2.2 stC5 dC5 wC5 (by decide)

theorem normalizeMongoDevice_ok {st : Store} {d : RawDoc} {w : MongoDeviceView}
    (h : normalizeMongoDevice st d = .ok w) :
    ∃ apps, appsNamesResult st d.oid = .ok apps ∧
      w = { oid := d.oid
            deviceName := d.deviceName
            tag := d.tag
            descriptionSummary := d.descriptionSummary
            applications := apps
            status := statusOf d.superMode
            formatted_status := formattedStatusOf d.superMode
            performance := extractPerformance (d.aiPerf.getD (.vstr []))
            type := if perfBranchSkipped (d.aiPerf.getD (.vstr [])) then none
              else some ("ai_edge".data)
            model := if perfBranchSkipped (d.aiPerf.getD (.vstr [])) then none
              else some (d.deviceName.getD (.vstr []))
            name := if perfBranchSkipped (d.aiPerf.getD (.vstr [])) then none
              else some (d.deviceName.getD (.vstr []))
            lastSeenSet := !perfBranchSkipped (d.aiPerf.getD (.vstr [])) } := by
  unfold normalizeMongoDevice at h
  cases happ : appsNamesResult st d.oid with
  | error u => rw [happ] at h; simp at h
  | ok apps =>
    rw [happ] at h
    simp only [Except.ok.injEq] at h
    exact ⟨apps, rfl, h.symm⟩

/-- C2 counterexample: for a document whose AI-Performance string matches
a pattern, the canonical view produced by `get_mongodb_devices` contains
neither `type` nor `model` nor `name` (skipped by `continue`), and no
tag either — contradicting the claim that every view contains all of
them regardless of the AI-Performance field. -/
theorem C2_counterexample :
    (normalizeMongoDevice stC2 dC2).map (fun w => (w.type, w.model, w.name, w.tag)) =
      .ok (none, none, none, none) := by
  decide

/-- C2 (amended): every successfully normalized view carries `status`,
`formatted_status`, `performance` and `applications`; `type`, `model`
and `name` are present exactly when the AI-Performance branch did not
`continue` (a non-string value, or a string matching no pattern); the
tag is only the passthrough of the source `tag` key. -/
theorem C2_canonical_view_fields :
    ∀ st d w, normalizeMongoDevice st d = .ok w →
      w.status = statusOf d.superMode
      ∧ w.formatted_status = formattedStatusOf d.superMode
      ∧ w.performance = extractPerformance (d.aiPerf.getD (.vstr []))
      ∧ (∃ apps, appsNamesResult st d.oid = .ok apps ∧ w.applications = apps)
      ∧ w.tag = d.tag
      ∧ w.type = (if perfBranchSkipped (d.aiPerf.getD (.vstr [])) then none
          else some ("ai_edge".data))
      ∧ w.model = (if perfBranchSkipped (d.aiPerf.getD (.vstr [])) then none
          else some (d.deviceName.getD (.vstr [])))
      ∧ w.name = (if perfBranchSkipped (d.aiPerf.getD (.vstr [])) then none
          else some (d.deviceName.getD (.vstr []))) := by
  intro st d w h
  obtain ⟨apps, happ, rfl⟩ := normalizeMongoDevice_ok h
  exact ⟨rfl, rfl, rfl, ⟨apps, happ, rfl⟩, rfl, rfl, rfl, rfl⟩

/-- Witness for the amended C2 at the concrete fixture. -/
theorem C2_canonical_view_fields_witness :
    wC2.status = statusOf dC2.superMode
    ∧ wC2.formatted_status = formattedStatusOf dC2.superMode
    ∧ wC2.performance = extractPerformance (dC2.aiPerf.getD (.vstr []))
    ∧ (∃ apps, appsNamesResult stC2 dC2.oid = .ok apps ∧ wC2.applications = apps)
    ∧ wC2.tag = dC2.tag
    ∧ wC2.type = (if perfBranchSkipped (dC2.aiPerf.getD (.vstr [])) then none
        else some ("ai_edge".data))
    ∧ wC2.model = (if perfBranchSkipped (dC2.aiPerf.getD (.vstr [])) then none
        else some (dC2.deviceName.getD (.vstr [])))
    ∧ wC2.name = (if perfBranchSkipped (dC2.aiPerf.getD (.vstr [])) then none
        else some (dC2.deviceName.getD (.vstr []))) :=
  C2_canonical_view_fields stC2 dC2 wC2 (by decide)

/-- C3 counterexample: a non-string numeric AI-Performance value of -5 is
coerced directly by `int()`, so the canonical view's performance is -5,
which is not a non-negative integer. -/
theorem C3_counterexample :
    (normalizeMongoDevice stC3 dC3).map (fun w => w.performance) = .ok (-5)
    ∧ ¬ (0 : Int) ≤ (-5 : Int) :=
  ⟨by decide, by decide⟩

/-- C3 (amended): the performance of a normalized view is non-negative
(0 by default) whenever the source field is absent, null, boolean, or
any string at all; a non-string numeric source is coerced directly, so
it alone can make the performance negative (and then equals it). -/
theorem C3_performance_nonneg :
    ∀ st d w, normalizeMongoDevice st d = .ok w →
      (∀ s, d.aiPerf = some (.vstr s) → 0 ≤ w.performance)
      ∧ (d.aiPerf = none → w.performance = 0)
      ∧ (d.aiPerf = some .vnull → w.performance = 0)
      ∧ (∀ b, d.aiPerf = some (.vbool b) → 0 ≤ w.performance)
      ∧ (∀ n, d.aiPerf = some (.vint n) → w.performance = n) := by
  intro st d w h
  obtain ⟨apps, happ, rfl⟩ := normalizeMongoDevice_ok h
  refine ⟨?_, ?_, ?_, ?_, ?_⟩
  · intro s hs
    simp only [hs, Option.getD_some]
    exact Int.natCast_nonneg (extractPerfStr s)
  · intro hs
    simp [hs]
    decide
  · intro hs
    simp [hs, extractPerformance, intCoerce]
  · intro b hb
    simp only [hb, Option.getD_some]
    cases b <;> decide
  · intro n hn
    simp [hn, extractPerformance, intCoerce]

/-- Witness for the amended C3 at the concrete fixture. -/
theorem C3_performance_nonneg_witness :
    wC3.performance = (-5 : Int) ∧ dC3.aiPerf = some (.vint (-5)) :=
  ⟨(C3_performance_nonneg stC3 dC3 wC3 (by decide)).2.2.2.2 (-5) rfl, rfl⟩

theorem normalizeWithTags_ok {st : Store} {d : RawDoc} {w : WithTagsView}
    (h : normalizeWithTags st d = .ok w) :
    ∃ tagOut apps, normTagResult d = .ok tagOut
      ∧ appsNamesResult st d.oid = .ok apps
      ∧ w = { idStr := d.oid
              tag := tagOut
              tagUpper := if d.tag.isSome then d.tagUpper else none
              applications := apps
              deviceName := deviceNameOrUnknown d
              formattedName := deviceNameOrUnknown d
              description := d.description.getD .vnull } := by
  unfold normalizeWithTags at h
  cases htag : normTagResult d with
  | error u => rw [htag] at h; simp at h
  | ok tagOut =>
    rw [htag] at h
    cases happ : appsNamesResult st d.oid with
    | error u => rw [happ] at h; simp at h
    | ok apps =>
      rw [happ] at h
      simp only [Except.ok.injEq] at h
      exact ⟨tagOut, apps, rfl, rfl, h.symm⟩

/-- C4 counterexample: an empty-string source tag is not `None`, so the
code lower-cases it and the output tag is the empty string — not null as
the claim demands for empty source tags. -/
theorem C4_counterexample :
    (normalizeWithTags stC4 dC4).map (fun w => w.tag) = .ok (.vstr [])
    ∧ BVal.vstr [] ≠ BVal.vnull :=
  ⟨by decide, by decide⟩

/-- C4 (amended): the resolution prefers the `tag` key and falls back to
the `Tag` key, which is dropped from the output when used; a null or
missing source tag yields null; every non-null (string) source tag —
including the empty string — is lower-cased, so an empty source tag
yields the empty string, not null. -/
theorem C4_tag_normalization :
    ∀ st d w, normalizeWithTags st d = .ok w →
      (∀ v, d.tag = some v → tagValue d = v)
      ∧ (d.tag = none → ∀ v, d.tagUpper = some v → tagValue d = v)
      ∧ (d.tag = none → w.tagUpper = none)
      ∧ (tagValue d = .vnull → w.tag = .vnull)
      ∧ (∀ s, tagValue d = .vstr s → w.tag = .vstr (s.map lcChar)) := by
  intro st d w h
  obtain ⟨tagOut, apps, htag, happ, rfl⟩ := normalizeWithTags_ok h
  refine ⟨?_, ?_, ?_, ?_, ?_⟩
  · intro v hv
    simp [tagValue, hv]
  · intro h0 v hv
    simp [tagValue, h0, hv]
  · intro h0
    simp [h0]
  · intro hnull
    unfold normTagResult at htag
    rw [hnull] at htag
    simp only [Except.ok.injEq] at htag
    exact htag.symm
  · intro s hs
    unfold normTagResult at htag
    rw [hs] at htag
    simp only [Except.ok.injEq] at htag
    exact htag.symm

/-- Witness for the amended C4 at the concrete fixture. -/
theorem C4_tag_normalization_witness :
    tagValue dC4 = .vstr [] ∧ wC4.tag = .vstr (([] : List Char).map lcChar) :=
  ⟨rfl, (C4_tag_normalization stC4 dC4 wC4 (by decide)).2.2.2.2 [] rfl⟩

/-- C6: for every identifier with no matching specification document —
no document carries it in its `device_id` field, and no document's
`_id` matches it as an ObjectId (an invalid ObjectId string is caught by
the inner handler) — `get_device_specifications` returns the explicit
not-found signal, never a store-level exception. -/
theorem C6_get_device_not_found :
    ∀ st id, (∀ d ∈ st.specs, d.deviceId ≠ some id) →
      (∀ d ∈ st.specs, ∀ o, parseObjectId id = some o → d.oid ≠ o) →
      getDeviceSpecifications st id = .notFound := by
  intro st id h1 h2
  have hf1 : st.specs.find? (fun x => decide (x.deviceId = some id)) = none := by
    rw [List.find?_eq_none]
    intro x hx
    simp [h1 x hx]
  cases hp : parseObjectId id with
  | none => simp [getDeviceSpecifications, hf1, hp]
  | some o =>
    have hf2 : st.specs.find? (fun x => decide (x.oid = o)) = none := by
      rw [List.find?_eq_none]
      intro x hx
      simp [h2 x hx o hp]
    simp [getDeviceSpecifications, hf1, hp, hf2]

/-- Witness for C6 at the concrete fixture. -/
theorem C6_get_device_not_found_witness :
    getDeviceSpecifications stC6 "absent-id" = .notFound :=
  C6_get_device_not_found stC6 "absent-id" (by decide) (by decide)

/-- C7: with no application link, a resolvable device receives exactly
the server default set when its name contains "Server" and exactly the
edge default set otherwise, and a valid-but-absent ObjectId yields the
empty sequence; but an identifier that is not a valid ObjectId (and has
no link) reaches the unguarded `ObjectId(device_id)` call of line 358,
so the route errors instead of returning an empty sequence. -/
theorem C7_applications_fallback :
    getDeviceApplications stC7 "nope" = .errored
    ∧ getDeviceApplications stC7 "111111111111111111111111" = .names serverDefaultApps
    ∧ getDeviceApplications stC7 "222222222222222222222222" = .names edgeDefaultApps
    ∧ getDeviceApplications stC7 "333333333333333333333333" = .names [] :=
  ⟨by decide, by decide, by decide, by decide⟩

/-- C10: the two lookup paths of `get_device_specifications` return
differently shaped results: a hit on the `device_id` field yields a
response with `_id` removed and `description_summary` passed through
untouched (no default added); a hit via `ObjectId` yields `_id` as a
string and always a `description_summary` key, null when the stored
document has none. -/
theorem C10_two_lookup_shapes :
    ∀ st id,
      (∀ d, st.specs.find? (fun x => decide (x.deviceId = some id)) = some d →
        getDeviceSpecifications st id =
          .found { idOut := none, descOut := d.descriptionSummary, doc := d })
      ∧ (st.specs.find? (fun x => decide (x.deviceId = some id)) = none →
          ∀ o d, parseObjectId id = some o →
            st.specs.find? (fun x => decide (x.oid = o)) = some d →
            getDeviceSpecifications st id =
              .found { idOut := some d.oid
                       descOut := some (d.descriptionSummary.getD .vnull)
                       doc := d }) := by
  intro st id
  constructor
  · intro d hd
    simp [getDeviceSpecifications, hd]
  · intro h0 o d hp hd
    simp [getDeviceSpecifications, h0, hp, hd]

/-- Witness for C10: both lookup paths exercised on the fixture store. -/
theorem C10_two_lookup_shapes_witness :
    getDeviceSpecifications stC10 "legacy-1" =
      .found { idOut := none, descOut := dC10a.descriptionSummary, doc := dC10a }
    ∧ getDeviceSpecifications stC10 "abcdefabcdefabcdefabcdef" =
      .found { idOut := some dC10b.oid
               descOut := some (dC10b.descriptionSummary.getD .vnull)
               doc := dC10b } :=
  ⟨(C10_two_lookup_shapes stC10 "legacy-1").1 dC10a (by decide),
   (C10_two_lookup_shapes stC10 "abcdefabcdefabcdefabcdef").2 (by decide)
     "abcdefabcdefabcdefabcdef" dC10b (by decide) (by decide)⟩

theorem extractAppNames_ok {entries : List AppEntry}
    (h : ∀ e ∈ entries, e.name ≠ none) : ∃ l, extractAppNames entries = .ok l := by
  induction entries with
  | nil => exact ⟨[], rfl⟩
  | cons e es ih =>
    obtain ⟨l, hl⟩ := ih (fun x hx => h x (List.mem_cons_of_mem e hx))
    cases hn : e.name with
    | none => exact absurd hn (h e (List.mem_cons_self e es))
    | some n => exact ⟨n :: l, by simp [extractAppNames, hn, hl]⟩

theorem extractAppNames_error {entries : List AppEntry}
    (h : ∃ e ∈ entries, e.name = none) : extractAppNames entries = .error () := by
  induction entries with
  | nil => simp at h
  | cons e es ih =>
    obtain ⟨x, hx, hxn⟩ := h
    cases hn : e.name with
    | none => simp [extractAppNames, hn]
    | some n =>
      rcases List.mem_cons.mp hx with rfl | hx2
      · rw [hn] at hxn; exact Option.noConfusion hxn
      · have h2 := ih ⟨x, hx2, hxn⟩
        simp [extractAppNames, hn, h2]

theorem appsNamesResult_ok {st : Store} {id : String}
    (h : ∀ link, st.apps.find? (fun a => decide (a.device_id = id)) = some link →
      ∀ entries, link.applications = some entries → ∀ e ∈ entries, e.name ≠ none) :
    ∃ l, appsNamesResult st id = .ok l := by
  cases hf : st.apps.find? (fun a => decide (a.device_id = id)) with
  | none => exact ⟨[], by simp [appsNamesResult, appsLookup, hf]⟩
  | some link =>
    cases ha : link.applications with
    | none => exact ⟨[], by simp [appsNamesResult, appsLookup, hf, ha]⟩
    | some entries =>
      obtain ⟨l, hl⟩ := extractAppNames_ok (h link hf entries ha)
      exact ⟨l, by simp [appsNamesResult, appsLookup, hf, ha, hl]⟩

/-- C8 counterexample: a mistyped (integer) tag makes the with-tags
normalization raise (`.lower()` on a non-string), and an application
entry without a `name` key makes the listing normalization raise
(`app['name']`); both surface as errors, contradicting the claim that
normalization never errors on malformed fields. -/
theorem C8_counterexample :
    normalizeWithTags stC8 dC8a = .error ()
    ∧ normalizeMongoDevice stC8 dC8b = .error () :=
  ⟨by decide, by decide⟩

/-- C8 (amended): normalization never fails on missing fields — any
document whose resolved tag is null or a string and whose linked
application entries all carry names normalizes successfully under both
endpoints — but a present non-string tag raises in the with-tags
normalization, and a linked application entry without a name raises in
the listing normalization; both are surfaced as errors. -/
theorem C8_malformed_fields :
    (∀ st d, (tagValue d = .vnull ∨ ∃ s, tagValue d = .vstr s) →
      (∀ link, st.apps.find? (fun a => decide (a.device_id = d.oid)) = some link →
        ∀ entries, link.applications = some entries → ∀ e ∈ entries, e.name ≠ none) →
      ∃ w, normalizeWithTags st d = .ok w)
    ∧ (∀ st d,
        (∀ link, st.apps.find? (fun a => decide (a.device_id = d.oid)) = some link →
          ∀ entries, link.applications = some entries → ∀ e ∈ entries, e.name ≠ none) →
        ∃ w, normalizeMongoDevice st d = .ok w)
    ∧ (∀ st d n, tagValue d = .vint n → normalizeWithTags st d = .error ())
    ∧ (∀ st d entries, appsLookup st d.oid = some entries →
        (∃ e ∈ entries, e.name = none) → normalizeMongoDevice st d = .error ()) := by
  refine ⟨?_, ?_, ?_, ?_⟩
  · intro st d htag happs
    obtain ⟨l, hl⟩ := appsNamesResult_ok happs
    have htagEq : ∃ tv, normTagResult d = .ok tv := by
      rcases htag with h | ⟨s, h⟩
      · exact ⟨.vnull, by simp [normTagResult, h]⟩
      · exact ⟨.vstr (s.map lcChar), by simp [normTagResult, h]⟩
    obtain ⟨tv, htv⟩ := htagEq
    refine ⟨{ idStr := d.oid, tag := tv
              tagUpper := if d.tag.isSome then d.tagUpper else none
              applications := l
              deviceName := deviceNameOrUnknown d
              formattedName := deviceNameOrUnknown d
              description := d.description.getD .vnull }, ?_⟩
    simp [normalizeWithTags, htv, hl]
  · intro st d happs
    obtain ⟨l, hl⟩ := appsNamesResult_ok happs
    refine ⟨{ oid := d.oid, deviceName := d.deviceName, tag := d.tag
              descriptionSummary := d.descriptionSummary
              applications := l
              status := statusOf d.superMode
              formatted_status := formattedStatusOf d.superMode
              performance := extractPerformance (d.aiPerf.getD (.vstr []))
              type := if perfBranchSkipped (d.aiPerf.getD (.vstr [])) then none
                else some ("ai_edge".data)
              model := if perfBranchSkipped (d.aiPerf.getD (.vstr [])) then none
                else some (d.deviceName.getD (.vstr []))
              name := if perfBranchSkipped (d.aiPerf.getD (.vstr [])) then none
                else some (d.deviceName.getD (.vstr []))
              lastSeenSet := !perfBranchSkipped (d.aiPerf.getD (.vstr [])) }, ?_⟩
    simp [normalizeMongoDevice, hl]
  · intro st d n h
    simp [normalizeWithTags, normTagResult, h]
  · intro st d entries hl hex
    have he := extractAppNames_error hex
    simp [normalizeMongoDevice, appsNamesResult, hl, he]

/-- Witness for the amended C8: a well-formed document normalizes, and
the integer-tag document errors, on the concrete fixture store. -/
theorem C8_malformed_fields_witness :
    (∃ w, normalizeWithTags stC8 dC8good = .ok w)
    ∧ normalizeWithTags stC8 dC8a = .error () :=
  ⟨C8_malformed_fields.1 stC8 dC8good (Or.inl rfl)
      (fun link hf => by
        have hn : List.find? (fun a => decide (a.device_id = dC8good.oid)) stC8.apps
            = none := by decide
        rw [hn] at hf
        exact Option.noConfusion hf),
    C8_malformed_fields.2.2.1 stC8 dC8a 7 rfl⟩

/-- C9 counterexample: in the end-to-end scenario the list endpoint
passes the tag through as "Best Seller" — not the lower-cased
"best seller" the claim requires (no tag lower-casing happens in
`get_mongodb_devices`). -/
theorem C9_counterexample :
    (getMongodbDevices stC9).map (List.map (fun w => w.tag)) =
      .ok [some (.vstr ("Best Seller".data))]
    ∧ ("Best Seller".data : List Char) ≠ ("best seller".data : List Char) :=
  ⟨by decide, by decide⟩

/-- C9 (amended): on the scenario store the list operation returns
exactly one canonical view with performance 16, status "enabled",
applications ["Smart Surveillance"], and the tag passed through
unchanged as "Best Seller". -/
theorem C9_end_to_end :
    (getMongodbDevices stC9).map (List.map (fun w => w.performance)) = .ok [(16 : Int)]
    ∧ (getMongodbDevices stC9).map (List.map (fun w => w.status)) = .ok ["enabled".data]
    ∧ (getMongodbDevices stC9).map (List.map (fun w => w.applications)) =
        .ok [[("Smart Surveillance".data)]]
    ∧ (getMongodbDevices stC9).map (List.map (fun w => w.tag)) =
        .ok [some (.vstr ("Best Seller".data))] :=
  ⟨by decide, by decide, by decide, by decide⟩

end WebSteve

